import Mathlib

/-!
Verification of the stress_detector signal-fusion and scoring engine.

The definitions below are a shallow embedding of the TypeScript source:
JavaScript numbers are modelled as exact rationals (`ℚ`), `Math.round` as
`jsRound` (floor of x + 1/2, which is exactly JS round-half-up for every
real argument), the short-circuit `x || d` on numeric operands as `jsOr`
(`d` when `x` is the falsy value 0, `x` otherwise), and a possibly-NaN
number as `JSNum` (`nan` arises from arithmetic on an `undefined` object
field).  Fallible code returns `Except`.  Struct fields that the source
may leave `undefined` at runtime are modelled with `Option`.
-/

/-- JS `Math.round`: round half toward positive infinity.  For every real
`q`, `Math.round q = ⌊q + 1/2⌋`. -/
def jsRound (q : ℚ) : ℤ := ⌊q + 1/2⌋

/-- JS `x || d` for numeric `x`: `d` when `x` is falsy (here the only
falsy rational is 0), otherwise `x`. -/
def jsOr (x d : ℚ) : ℚ := if x = 0 then d else x

/-- `clamp(value, min, max) = Math.min(max, Math.max(min, value))`
(main.ts line 137). -/
def clamp (value lo hi : ℚ) : ℚ := min hi (max lo value)

/-- A JavaScript number that may be NaN (the result of arithmetic with an
`undefined` operand). -/
inductive JSNum where
  | nan : JSNum
  | num (val : ℚ) : JSNum
deriving DecidableEq

/-- JS `z || 0` on a possibly-NaN number: NaN is falsy, so it maps to 0;
the rational 0 is falsy and also maps to 0, so on `num q` the result is
always `q`. -/
def JSNum.orZero : JSNum → ℚ
  | .nan => 0
  | .num q => q

/-- `applyEMA(newValue, previousValue, alpha) = alpha*new + (1-alpha)*previous`
(main.ts line 141). -/
def applyEMA (newValue previousValue alpha : ℚ) : ℚ :=
  alpha * newValue + (1 - alpha) * previousValue

/-- `average(values)`: 0 on the empty list, else sum / length
(main.ts line 159). -/
def average (values : List ℚ) : ℚ :=
  if values = [] then 0 else values.sum / values.length

/-- Core of `pushLimited` / `pushEmotionLimited` (main.ts lines 145-157):
append, then `shift()` (drop the head) once if the length exceeds the
capacity.  Both source functions have this exact body; they differ only in
the element type, so the embedding is polymorphic. -/
def pushCap {α : Type} (values : List α) (v : α) (maxSize : ℕ) : List α :=
  let vs := values ++ [v]
  if maxSize < vs.length then vs.tail else vs

/-- The seven emotion labels of main.ts. -/
inductive EmotionLabel where
  | Neutral | Feliz | Triste | Enojado | Sorprendido | Asustado | Disgustado
deriving DecidableEq

/-- `pushLimited(values, value, maxSize)` on numeric histories. -/
def pushLimited (values : List ℚ) (value : ℚ) (maxSize : ℕ) : List ℚ :=
  pushCap values value maxSize

/-- `pushEmotionLimited(values, value, maxSize)` on emotion histories. -/
def pushEmotionLimited (values : List EmotionLabel) (value : EmotionLabel)
    (maxSize : ℕ) : List EmotionLabel :=
  pushCap values value maxSize

/-! ## Personality analyzer (src/analysis/personality-analyzer.ts) -/

/-- Big-Five profile: one score per trait. -/
structure BigFive where
  O : ℚ
  C : ℚ
  E : ℚ
  A : ℚ
  N : ℚ
deriving DecidableEq

/-- `invert(value) = 6 - value`. -/
def invert (value : ℚ) : ℚ := 6 - value

/-- `clampLikert(value) = Math.min(5, Math.max(1, Math.round(value)))`. -/
def clampLikert (value : ℚ) : ℚ := min 5 (max 1 ((jsRound value : ℤ) : ℚ))

/-- `computeBigFive(answers)`: throws unless exactly 10 answers, else
sanitizes each answer with `clampLikert` and averages each trait pair with
the second item reverse-coded. -/
def computeBigFive (answers : List ℚ) : Except String BigFive :=
  if answers.length = 10 then
    let s := answers.map clampLikert
    .ok { O := (s.getD 0 0 + invert (s.getD 1 0)) / 2
          C := (s.getD 2 0 + invert (s.getD 3 0)) / 2
          E := (s.getD 4 0 + invert (s.getD 5 0)) / 2
          A := (s.getD 6 0 + invert (s.getD 7 0)) / 2
          N := (s.getD 8 0 + invert (s.getD 9 0)) / 2 }
  else
    .error "Se requieren 10 respuestas para calcular Big Five."

/-- `traitToPercent(value) = Math.round(((clamp(value,1,5) - 1) / 4) * 100)`. -/
def traitToPercent (value : ℚ) : ℤ :=
  jsRound ((min 5 (max 1 value) - 1) / 4 * 100)

/-! ## Deception signal processor (src/deception/signal-processor.ts)

`emotionVolatilityStd` is declared `number` in the `BaselineMetrics`
interface, but the baseline object assembled in main.ts's calibration
callback (lines 643-653) omits the field, so at runtime it can be
`undefined`; the embedding therefore gives it type `Option ℚ` (`none` =
`undefined`).  `Math.max(undefined, 0.1)` is NaN and division by NaN is
NaN, hence the `JSNum`-valued z-score for emotion volatility. -/

structure BaselineMetrics where
  attentionMean : ℚ
  attentionStd : ℚ
  blinkRateMean : ℚ
  blinkRateStd : ℚ
  fatigueMean : ℚ
  fatigueStd : ℚ
  headMotionMean : ℚ
  headMotionStd : ℚ
  emotionVolatilityMean : ℚ
  emotionVolatilityStd : Option ℚ
deriving DecidableEq

/-- The built-in default baseline used when no calibration has occurred. -/
def DEFAULT_BASELINE : BaselineMetrics :=
  { attentionMean := 75, attentionStd := 12
    blinkRateMean := 15, blinkRateStd := 4
    fatigueMean := 25, fatigueStd := 8
    headMotionMean := 5, headMotionStd := 2
    emotionVolatilityMean := 3/20, emotionVolatilityStd := some (2/25) }

/-- The `currentSignals` record of `SignalProcessor`. -/
structure CurrentSignals where
  attention : ℚ
  blinkRate : ℚ
  fatigue : ℚ
  headMotion : ℚ
  emotionVolatility : ℚ
deriving DecidableEq

/-- The z-score record returned by `calculateZScores`; each entry is a JS
number, possibly NaN. -/
structure ZScores where
  attention : JSNum
  blinkRate : JSNum
  fatigue : JSNum
  headMotion : JSNum
  emotionVolatility : JSNum
deriving DecidableEq

/-- `SignalProcessor.calculateZScores()`: substitutes `DEFAULT_BASELINE`
when `baseline` is null, then computes `|value - mean| / Math.max(std, floor)`
per metric (floor 0.1 for attention/headMotion/emotionVolatility, 1 for
blinkRate/fatigue).  When `emotionVolatilityStd` is `undefined` the
divisor `Math.max(undefined, 0.1)` is NaN, and so is the quotient. -/
def calculateZScores (baseline : Option BaselineMetrics) (s : CurrentSignals) :
    ZScores :=
  let b := baseline.getD DEFAULT_BASELINE
  { attention := .num (|s.attention - b.attentionMean| / max b.attentionStd (1/10))
    blinkRate := .num (|s.blinkRate - b.blinkRateMean| / max b.blinkRateStd 1)
    fatigue := .num (|s.fatigue - b.fatigueMean| / max b.fatigueStd 1)
    headMotion := .num (|s.headMotion - b.headMotionMean| / max b.headMotionStd (1/10))
    emotionVolatility :=
      match b.emotionVolatilityStd with
      | some sd => .num (|s.emotionVolatility - b.emotionVolatilityMean| / max sd (1/10))
      | none => .nan }

/-! ## Deception probability calculator (src/deception/probability-calculator.ts) -/

/-- `calculateDeceptionProbability(zScores)`: 0 on an empty z-score record
(`none` here); otherwise each z-score is read with the `|| 0` guard
(turning NaN into 0), halved, clamped to [0,1], combined with the fixed
weights 0.28/0.22/0.16/0.18/0.16 (accumulated into `deceptionScore` and
`totalWeight`), normalized by `Math.max(totalWeight, 1)`, scaled to
[0,100], clamped and rounded. -/
def calculateDeceptionProbability (zScores : Option ZScores) : ℤ :=
  match zScores with
  | none => 0
  | some z =>
    let nAttention := min (max (z.attention.orZero / 2) 0) 1
    let nBlinkRate := min (max (z.blinkRate.orZero / 2) 0) 1
    let nFatigue := min (max (z.fatigue.orZero / 2) 0) 1
    let nHeadMotion := min (max (z.headMotion.orZero / 2) 0) 1
    let nEmotionVolatility := min (max (z.emotionVolatility.orZero / 2) 0) 1
    let deceptionScore :=
      nAttention * (7/25) + nBlinkRate * (11/50) + nFatigue * (4/25) +
        nHeadMotion * (9/50) + nEmotionVolatility * (4/25)
    let totalWeight : ℚ := 7/25 + 11/50 + 4/25 + 9/50 + 4/25
    let probability := deceptionScore / max totalWeight 1 * 100
    jsRound (min (max probability 0) 100)

/-! ## main.ts deception estimate (lines 472-511) -/

/-- Adjacent-pair label changes counted by the `transitions` loop of
`calculateDeceptionEstimate`. -/
def countLabelChanges : List EmotionLabel → ℕ
  | a :: b :: rest => (if a ≠ b then 1 else 0) + countLabelChanges (b :: rest)
  | _ => 0

/-- Emotion volatility: fraction of adjacent-pair label changes within the
last 20 entries of the emotion history (`slice(-20)`); 0 when fewer than
two entries. -/
def emotionVolatilityOf (history : List EmotionLabel) : ℚ :=
  let recent := history.drop (history.length - 20)
  if 2 ≤ recent.length then
    (countLabelChanges recent : ℚ) / ((recent.length : ℚ) - 1)
  else 0

/-- The slice of `runtimeState` read by `calculateDeceptionEstimate`.
`headMotion` is `Math.sqrt(yaw² + pitch² + roll²)` of the current head
pose — an irrational real in general, so it enters the model as an
arbitrary rational value. -/
structure DeceptionRuntime where
  attentionHistory : List ℚ
  fatigueHistory : List ℚ
  emotionHistory : List EmotionLabel
  blinkRate : ℚ
  headMotion : ℚ
  baseline : Option BaselineMetrics

/-- `calculateDeceptionEstimate()` (main.ts lines 472-511): averages the
rolling histories (`|| 75` and `|| 25` fallbacks), computes the emotion
volatility, feeds the signals and the current baseline through
`calculateZScores`, and rounds `calculateDeceptionProbability`. -/
def calculateDeceptionEstimate (st : DeceptionRuntime) : ℤ :=
  let attentionAvg := jsOr (average st.attentionHistory) 75
  let fatigueAvg := jsOr (average st.fatigueHistory) 25
  let emotionVolatility := emotionVolatilityOf st.emotionHistory
  let zScores := calculateZScores st.baseline
    { attention := attentionAvg, blinkRate := st.blinkRate,
      fatigue := fatigueAvg, headMotion := st.headMotion,
      emotionVolatility := emotionVolatility }
  jsRound ((calculateDeceptionProbability (some zScores) : ℤ) : ℚ)

/-! ## Calibration baseline assembly (main.ts lines 631-655) -/

/-- Model of `Math.sqrt` on the nonnegative rationals: exact whenever the
argument is the square of a rational (`(a/b)^2` in lowest terms has
numerator `a^2` and denominator `b^2`), which covers every input the
statements below evaluate it at (in particular the variance 0 of constant
calibration data). -/
def jsSqrt (q : ℚ) : ℚ := (Nat.sqrt q.num.toNat : ℚ) / (Nat.sqrt q.den : ℚ)

/-- `calculateStats(data)`: `{mean: 0, std: 0.1}` on empty data, else the
mean and the population standard deviation with `Math.sqrt(variance) || 0.1`
flooring a zero standard deviation to 0.1. -/
def calculateStats (data : List ℚ) : ℚ × ℚ :=
  if data = [] then (0, 1/10)
  else
    let mean := data.sum / (data.length : ℚ)
    let variance := (data.map (fun b => (b - mean) ^ 2)).sum / (data.length : ℚ)
    (mean, jsOr (jsSqrt variance) (1/10))

/-- The per-metric accumulators of `runtimeState.calibrationData`. -/
structure CalibrationData where
  attention : List ℚ
  blinkRate : List ℚ
  fatigue : List ℚ
  headMotion : List ℚ
  emotionVolatility : List ℚ

/-- The baseline object literal built in the calibration timeout callback
(main.ts lines 643-653).  It sets `emotionVolatilityMean` but no
`emotionVolatilityStd` — the field the `BaselineMetrics` interface
declares is simply absent, i.e. `undefined` (`none`). -/
def assembleBaseline (d : CalibrationData) : BaselineMetrics :=
  { attentionMean := (calculateStats d.attention).1
    attentionStd := (calculateStats d.attention).2
    blinkRateMean := (calculateStats d.blinkRate).1
    blinkRateStd := (calculateStats d.blinkRate).2
    fatigueMean := (calculateStats d.fatigue).1
    fatigueStd := (calculateStats d.fatigue).2
    headMotionMean := (calculateStats d.headMotion).1
    headMotionStd := (calculateStats d.headMotion).2
    emotionVolatilityMean := (calculateStats d.emotionVolatility).1
    emotionVolatilityStd := none }

/-! ## Attention estimator (main.ts lines 332-365, 542-555) -/

/-- The individual eye-look scores read from `faceAnalysis.eyeMetrics`. -/
structure EyeMetrics where
  eyeLookOut : ℚ
  eyeLookUp : ℚ
  eyeLookDown : ℚ
deriving DecidableEq

/-- Head pose angles in degrees. -/
structure HeadPose where
  yaw : ℚ
  pitch : ℚ
  roll : ℚ
deriving DecidableEq

/-- The face-analysis fields `estimateAttention` reads. -/
structure FaceAnalysisInput where
  eyeMetrics : EyeMetrics
  headPose : HeadPose
deriving DecidableEq

/-- The unsmoothed instantaneous attention of a frame with face features:
`100 * (1 - clamp(0.6*gazeAway + 0.4*headAway, 0, 1))` where `gazeAway` is
the max of the three eye-look scores and `headAway` the normalized
yaw/pitch deviation. -/
def estimateAttentionRaw (f : FaceAnalysisInput) : ℚ :=
  let gazeAway := max f.eyeMetrics.eyeLookOut (max f.eyeMetrics.eyeLookUp f.eyeMetrics.eyeLookDown)
  let headYaw := |f.headPose.yaw| / 45
  let headPitch := |f.headPose.pitch| / 45
  let headAway := max (min headYaw 1) (min headPitch 1)
  100 * (1 - clamp (6/10 * gazeAway + 4/10 * headAway) 0 1)

/-- `estimateAttention(faceAnalysis, emotion)`: returns the attention
level together with the new `runtimeState.smoothedAttention`.  Without
face features it falls back to an emotion-penalized constant and leaves
the smoothing state unchanged; with face features it EMA-smooths the raw
level (alpha 0.15) and returns the rounded value clamped to [20, 99]. -/
def estimateAttention (smoothedAttention : ℚ) (face : Option FaceAnalysisInput)
    (emotionLabel : EmotionLabel) (emotionScore : ℚ) : ℚ × ℚ :=
  match face with
  | none =>
    let emotionPenalty :=
      if emotionLabel = .Asustado ∨ emotionLabel = .Enojado then
        clamp (emotionScore * 10) 0 10
      else if emotionLabel = .Triste then clamp (emotionScore * 7) 0 7
      else 0
    (clamp (75 - emotionPenalty) 20 99, smoothedAttention)
  | some f =>
    let attentionRaw := estimateAttentionRaw f
    let smoothed := applyEMA attentionRaw smoothedAttention (3/20)
    (clamp ((jsRound smoothed : ℤ) : ℚ) 20 99, smoothed)

/-- The `gazingAway` flag assembled into `currentAnalysis.attention` by
`analyzeFrame` (main.ts line 547): `attentionLevel < 55` where
`attentionLevel` is the value returned by `estimateAttention`. -/
def attentionGazingAway (smoothedAttention : ℚ) (face : Option FaceAnalysisInput)
    (emotionLabel : EmotionLabel) (emotionScore : ℚ) : Bool :=
  decide ((estimateAttention smoothedAttention face emotionLabel emotionScore).1 < 55)

/-! ## Blink detector (src/analysis/blink-detector.ts, first variant) -/

def EAR_THRESHOLD : ℚ := 9/50

def MAR_THRESHOLD : ℚ := 1/2

/-- The 60000 ms trailing window. -/
def WINDOW_SIZE : ℤ := 60000

/-- One retained frame observation. -/
structure BlinkFrame where
  timestamp : ℤ
  isEyeOpen : Bool
  isYawning : Bool
deriving DecidableEq

/-- The mutable state of `BlinkDetector`. -/
structure BlinkState where
  frames : List BlinkFrame
  blinkEvents : List ℤ
deriving DecidableEq

/-- The record returned by `BlinkDetector.update`. -/
structure BlinkResult where
  blinks : ℤ
  isBlinking : Bool
  isYawning : Bool
deriving DecidableEq

def initialBlinkState : BlinkState := ⟨[], []⟩

/-- Timestamp of the first retained frame (`frames[0].timestamp`). -/
def headTimestamp (l : List BlinkFrame) : ℤ :=
  (l.head?.map BlinkFrame.timestamp).getD 0

/-- Timestamp of the last retained frame (`frames[frames.length - 1].timestamp`). -/
def lastTimestamp (l : List BlinkFrame) : ℤ :=
  (l.getLast?.map BlinkFrame.timestamp).getD 0

/-- `BlinkDetector.update(ear, mar, now)`: threshold the frame, append it,
drop frames and blink events outside the trailing window, record a blink
event at `now` when the last two retained frames are an open→closed pair,
and report `Math.round((blinkEvents.length / elapsedWindowMs) * 60000)`
where `elapsedWindowMs` is the retained-frame span floored at 1000 ms
(0, and hence a reported rate of 0, when fewer than two frames remain). -/
def blinkUpdate (s : BlinkState) (ear mar : ℚ) (now : ℤ) : BlinkState × BlinkResult :=
  let isEyeOpen : Bool := decide (EAR_THRESHOLD < ear)
  let isYawning : Bool := decide (MAR_THRESHOLD < mar)
  let pushed := s.frames ++ [{ timestamp := now, isEyeOpen := isEyeOpen, isYawning := isYawning }]
  let frames := pushed.filter (fun f => decide (now - f.timestamp < WINDOW_SIZE))
  let kept := s.blinkEvents.filter (fun t => decide (now - t < WINDOW_SIZE))
  let blinkEvents :=
    match frames.reverse with
    | curr :: prev :: _ => if prev.isEyeOpen && !curr.isEyeOpen then kept ++ [now] else kept
    | _ => kept
  let elapsedWindowMs : ℤ :=
    if 1 < frames.length then max 1000 (lastTimestamp frames - headTimestamp frames) else 0
  let blinksPerMinute : ℤ :=
    if 0 < elapsedWindowMs then
      jsRound ((blinkEvents.length : ℚ) / (elapsedWindowMs : ℚ) * 60000)
    else 0
  (⟨frames, blinkEvents⟩, ⟨blinksPerMinute, !isEyeOpen, isYawning⟩)

/-- One `update` call's arguments. -/
structure BlinkInput where
  ear : ℚ
  mar : ℚ
  now : ℤ
deriving DecidableEq

/-- Feed a sequence of frame observations to the detector; returns the
final state and the rate reported by the last `update` call (0 for the
empty sequence). -/
def blinkRun : BlinkState → List BlinkInput → BlinkState × ℤ
  | s, [] => (s, 0)
  | s, [x] =>
    ((blinkUpdate s x.ear x.mar x.now).1, (blinkUpdate s x.ear x.mar x.now).2.blinks)
  | s, x :: y :: rest => blinkRun (blinkUpdate s x.ear x.mar x.now).1 (y :: rest)

/-- The thresholded frame a single input produces. -/
def toBlinkFrame (x : BlinkInput) : BlinkFrame :=
  ⟨x.now, decide (EAR_THRESHOLD < x.ear), decide (MAR_THRESHOLD < x.mar)⟩

/-- The frames a whole input sequence produces. -/
def framesOf (trace : List BlinkInput) : List BlinkFrame := trace.map toBlinkFrame

/-- Timestamps of the open→closed transitions between consecutive frames;
each transition is recorded at the closed frame's timestamp, as
`BlinkDetector.update` does. -/
def transitionTimes : List BlinkFrame → List ℤ
  | a :: b :: rest =>
    (if a.isEyeOpen && !b.isEyeOpen then [b.timestamp] else []) ++ transitionTimes (b :: rest)
  | _ => []

/-- The rate the spec's formula predicts for a trace that fits inside the
trailing window: the open→closed transition count scaled by
`60000 / max(1000, span)` where `span` is the time from the first to the
last observation; 0 for traces of fewer than two frames. -/
def blinkSpecRate (trace : List BlinkInput) : ℤ :=
  let fs := framesOf trace
  if 1 < fs.length then
    jsRound (((transitionTimes fs).length : ℚ) /
      ((max 1000 (lastTimestamp fs - headTimestamp fs) : ℤ) : ℚ) * 60000)
  else 0

/-! ## Helper lemmas -/

/-- `Math.round` of an integer is itself. -/
lemma jsRound_intCast (n : ℤ) : jsRound ((n : ℤ) : ℚ) = n := by
  unfold jsRound
  rw [Int.floor_int_add]
  norm_num

/-- `Math.round` is monotone. -/
lemma jsRound_mono {p q : ℚ} (h : p ≤ q) : jsRound p ≤ jsRound q :=
  Int.floor_le_floor (by linarith)

/-- The normalized z-score `Math.min(Math.max(z/2, 0), 1)` lies in [0, 1]. -/
lemma unit_clamp_bounds (q : ℚ) : 0 ≤ min (max q 0) 1 ∧ min (max q 0) 1 ≤ 1 :=
  ⟨le_min (le_max_right q 0) (by norm_num), min_le_right _ 1⟩

/-! ## C2 -/

/-- C2 counterexample: with no baseline ever set and the initial all-zero
current signals, the composite deception score is 96, not 0 — the scorer
substitutes the built-in default baseline instead of zeroing the z-score
contributions. -/
theorem deceptionProbability_noBaseline_cex :
    calculateDeceptionProbability (some (calculateZScores none ⟨0, 0, 0, 0, 0⟩)) = 96 ∧
    calculateDeceptionProbability (some (calculateZScores none ⟨0, 0, 0, 0, 0⟩)) ≠ 0 := by
  have hz : calculateZScores none ⟨0, 0, 0, 0, 0⟩
      = ⟨.num (25/4), .num (15/4), .num (25/8), .num (5/2), .num (3/2)⟩ := by
    simp only [calculateZScores, DEFAULT_BASELINE, Option.getD]
    norm_num [max_def, abs]
  have h : calculateDeceptionProbability (some (calculateZScores none ⟨0, 0, 0, 0, 0⟩)) = 96 := by
    rw [hz]
    simp only [calculateDeceptionProbability, JSNum.orZero]
    norm_num [max_def, min_def, jsRound]
  exact ⟨h, by rw [h]; norm_num⟩

/-- C2 (amended): when no baseline has been set, `calculateZScores`
computes the z-scores against the built-in `DEFAULT_BASELINE` (it never
throws and never returns an empty record), and
`calculateDeceptionProbability` returns 0 exactly on an empty z-score
record (the guard of its draft caller). -/
theorem calculateZScores_noBaseline_default :
    (∀ s : CurrentSignals, calculateZScores none s = calculateZScores (some DEFAULT_BASELINE) s)
    ∧ calculateDeceptionProbability none = 0 :=
  ⟨fun _ => rfl, rfl⟩

/-! ## C3 -/

/-- C3 (code bug): the baseline assembled on calibration completion does
give each metric the mean of its accumulated samples and the population
standard deviation floored to 0.1 when zero (calibrating on constant
attention 80 yields attentionMean 80 and attentionStd 0.1), but for
emotion volatility it assembles only the mean: the `emotionVolatilityStd`
field required by the `BaselineMetrics` interface is absent (`undefined`)
for every completed calibration. -/
theorem assembleBaseline_missing_emotionVolatilityStd :
    (assembleBaseline ⟨[80, 80, 80], [15, 15], [25], [5, 5, 5], [3/5, 4/5]⟩).attentionMean = 80
    ∧ (assembleBaseline ⟨[80, 80, 80], [15, 15], [25], [5, 5, 5], [3/5, 4/5]⟩).attentionStd = 1/10
    ∧ (assembleBaseline ⟨[80, 80, 80], [15, 15], [25], [5, 5, 5], [3/5, 4/5]⟩).emotionVolatilityStd = none
    ∧ ∀ d : CalibrationData, (assembleBaseline d).emotionVolatilityStd = none := by
  have h80 : calculateStats [80, 80, 80] = (80, 1/10) := by
    simp only [calculateStats]
    norm_num [jsOr, jsSqrt, List.cons_ne_nil]
  refine ⟨?_, ?_, rfl, fun _ => rfl⟩
  · show (calculateStats [80, 80, 80]).1 = 80
    rw [h80]
  · show (calculateStats [80, 80, 80]).2 = 1/10
    rw [h80]

/-! ## C5 -/

/-- C5 counterexample: a frame whose unsmoothed instantaneous attention is
40 (below the 55 cutoff) nevertheless reports `gazingAway = false` when
the previous smoothed attention is 75, because the flag tests the
EMA-smoothed level, not the unsmoothed one. -/
theorem gazingAway_unsmoothed_cex :
    estimateAttentionRaw ⟨⟨1, 0, 0⟩, ⟨0, 0, 0⟩⟩ < 55
    ∧ attentionGazingAway 75 (some ⟨⟨1, 0, 0⟩, ⟨0, 0, 0⟩⟩) .Neutral 0 = false := by
  constructor
  · norm_num [estimateAttentionRaw, clamp]
  · norm_num [attentionGazingAway, estimateAttention, estimateAttentionRaw, clamp, applyEMA,
      jsRound]

/-- C5 (amended): on every analyzed frame with face features present, the
`gazingAway` flag is true exactly when the EMA-smoothed (alpha 0.15),
rounded, [20,99]-clamped attention level of that frame falls below 55. -/
theorem gazingAway_smoothed (smoothedAttention : ℚ) (f : FaceAnalysisInput)
    (emotionLabel : EmotionLabel) (emotionScore : ℚ) :
    attentionGazingAway smoothedAttention (some f) emotionLabel emotionScore
      = decide (clamp ((jsRound (applyEMA (estimateAttentionRaw f) smoothedAttention (3/20)) : ℤ) : ℚ) 20 99 < 55) :=
  rfl

/-! ## C4 and C1 -/

/-- The source's `clamp(x, 0, 1)` written the way the probability
calculator writes it inline. -/
lemma clamp_unit (x : ℚ) : clamp x 0 1 = min (max x 0) 1 := by
  rw [clamp, min_comm, max_comm]

/-- `Math.round` of a value in [0, 100] stays in [0, 100]. -/
lemma jsRound_range {q : ℚ} (h0 : 0 ≤ q) (h1 : q ≤ 100) :
    0 ≤ jsRound q ∧ jsRound q ≤ 100 := by
  constructor
  · exact Int.le_floor.mpr (by push_cast; linarith)
  · have h : jsRound q < 101 := Int.floor_lt.mpr (by push_cast; linarith)
    omega

/-- `calculateDeceptionProbability` always lands in [0, 100], whatever the
z-scores are (including NaN entries from a post-calibration baseline). -/
lemma deceptionProbability_range (z : Option ZScores) :
    0 ≤ calculateDeceptionProbability z ∧ calculateDeceptionProbability z ≤ 100 := by
  cases z with
  | none => simp [calculateDeceptionProbability]
  | some z =>
    simp only [calculateDeceptionProbability]
    apply jsRound_range
    · exact le_min (le_max_right _ 0) (by norm_num)
    · exact min_le_right _ 100

/-- C1: for every runtime state — empty or populated histories, any
current blink rate and head motion, and any baseline (none yet, or any
assembled one, including the ones whose `emotionVolatilityStd` is absent
and whose emotion-volatility z-score is therefore NaN) — the deception
estimate is an integer (the codomain is `ℤ`, mirroring `Math.round`) in
the range 0..100. -/
theorem deceptionEstimate_range (st : DeceptionRuntime) :
    0 ≤ calculateDeceptionEstimate st ∧ calculateDeceptionEstimate st ≤ 100 := by
  unfold calculateDeceptionEstimate
  rw [jsRound_intCast]
  exact deceptionProbability_range _

/-- C4: on non-negative z-scores the composite deception score equals
`round(100 * (0.28*clamp(zAtt/2,0,1) + 0.22*clamp(zBlink/2,0,1) +
0.16*clamp(zFat/2,0,1) + 0.18*clamp(zHead/2,0,1) +
0.16*clamp(zVol/2,0,1)))`; it is 0 when every z-score is 0; and it is
monotonically non-decreasing in each z-score (stated pointwise, which
subsumes varying one coordinate with the others held fixed). -/
theorem deceptionProbability_formula (za zb zf zh zv : ℚ)
    (ha : 0 ≤ za) (hb : 0 ≤ zb) (hf : 0 ≤ zf) (hh : 0 ≤ zh) (hv : 0 ≤ zv) :
    calculateDeceptionProbability (some ⟨.num za, .num zb, .num zf, .num zh, .num zv⟩)
      = jsRound (100 * (7/25 * clamp (za/2) 0 1 + 11/50 * clamp (zb/2) 0 1
          + 4/25 * clamp (zf/2) 0 1 + 9/50 * clamp (zh/2) 0 1 + 4/25 * clamp (zv/2) 0 1))
    ∧ calculateDeceptionProbability (some ⟨.num 0, .num 0, .num 0, .num 0, .num 0⟩) = 0
    ∧ (∀ za' zb' zf' zh' zv' : ℚ, za ≤ za' → zb ≤ zb' → zf ≤ zf' → zh ≤ zh' → zv ≤ zv' →
        calculateDeceptionProbability (some ⟨.num za, .num zb, .num zf, .num zh, .num zv⟩)
          ≤ calculateDeceptionProbability (some ⟨.num za', .num zb', .num zf', .num zh', .num zv'⟩)) := by
  refine ⟨?_, ?_, ?_⟩
  · simp only [calculateDeceptionProbability, JSNum.orZero, clamp_unit]
    obtain ⟨ha0, ha1⟩ := unit_clamp_bounds (za/2)
    obtain ⟨hb0, hb1⟩ := unit_clamp_bounds (zb/2)
    obtain ⟨hf0, hf1⟩ := unit_clamp_bounds (zf/2)
    obtain ⟨hh0, hh1⟩ := unit_clamp_bounds (zh/2)
    obtain ⟨hv0, hv1⟩ := unit_clamp_bounds (zv/2)
    have hT : max (7/25 + 11/50 + 4/25 + 9/50 + 4/25 : ℚ) 1 = 1 := by norm_num
    rw [hT, div_one]
    have hS0 : (0:ℚ) ≤ min (max (za/2) 0) 1 * (7/25) + min (max (zb/2) 0) 1 * (11/50)
        + min (max (zf/2) 0) 1 * (4/25) + min (max (zh/2) 0) 1 * (9/50)
        + min (max (zv/2) 0) 1 * (4/25) := by linarith
    have hS1 : min (max (za/2) 0) 1 * (7/25) + min (max (zb/2) 0) 1 * (11/50)
        + min (max (zf/2) 0) 1 * (4/25) + min (max (zh/2) 0) 1 * (9/50)
        + min (max (zv/2) 0) 1 * (4/25) ≤ 1 := by linarith
    rw [max_eq_left (by nlinarith), min_eq_left (by nlinarith)]
    congr 1
    ring
  · simp only [calculateDeceptionProbability, JSNum.orZero]
    norm_num [max_def, min_def, jsRound]
  · intro za' zb' zf' zh' zv' ha' hb' hf' hh' hv'
    simp only [calculateDeceptionProbability, JSNum.orZero]
    apply jsRound_mono
    gcongr

/-- Witness for C4 at the concrete z-scores (4, 1, 0, 2, 6). -/
theorem deceptionProbability_formula_witness :
    (0:ℚ) ≤ 4 ∧
    calculateDeceptionProbability (some ⟨.num 4, .num 1, .num 0, .num 2, .num 6⟩)
      = jsRound (100 * (7/25 * clamp ((4:ℚ)/2) 0 1 + 11/50 * clamp ((1:ℚ)/2) 0 1
          + 4/25 * clamp ((0:ℚ)/2) 0 1 + 9/50 * clamp ((2:ℚ)/2) 0 1
          + 4/25 * clamp ((6:ℚ)/2) 0 1)) :=
  ⟨by norm_num,
    (deceptionProbability_formula 4 1 0 2 6 (by norm_num) (by norm_num) (by norm_num)
      (by norm_num) (by norm_num)).1⟩

/-! ## C6, C7 and C10 -/

lemma clampLikert_of_likert {a : ℚ} (h : a = 1 ∨ a = 2 ∨ a = 3 ∨ a = 4 ∨ a = 5) :
    clampLikert a = a := by
  rcases h with rfl | rfl | rfl | rfl | rfl <;> norm_num [clampLikert, jsRound]

lemma getD_map_clampLikert (l : List ℚ) (i : ℕ) (hi : i < l.length) :
    (l.map clampLikert).getD i 0 = clampLikert (l.getD i 0) := by
  rw [List.getD_eq_getElem _ _ (by simpa using hi), List.getElem_map,
    List.getD_eq_getElem _ _ hi]

/-- C6: `computeBigFive` fails if and only if the answer list does not
have exactly 10 elements (so it never silently truncates or pads), it
fails with the explicit contract-violation error message, and every
10-element list produces a profile without failing. -/
theorem computeBigFive_length_contract (answers : List ℚ) :
    ((∃ p, computeBigFive answers = .ok p) ↔ answers.length = 10)
    ∧ (answers.length ≠ 10 →
        computeBigFive answers = .error "Se requieren 10 respuestas para calcular Big Five.") := by
  refine ⟨⟨?_, ?_⟩, ?_⟩
  · rintro ⟨p, hp⟩
    by_contra h
    simp only [computeBigFive, if_neg h] at hp
    exact Except.noConfusion hp
  · intro h
    exact ⟨{ O := ((answers.map clampLikert).getD 0 0 + invert ((answers.map clampLikert).getD 1 0)) / 2
             C := ((answers.map clampLikert).getD 2 0 + invert ((answers.map clampLikert).getD 3 0)) / 2
             E := ((answers.map clampLikert).getD 4 0 + invert ((answers.map clampLikert).getD 5 0)) / 2
             A := ((answers.map clampLikert).getD 6 0 + invert ((answers.map clampLikert).getD 7 0)) / 2
             N := ((answers.map clampLikert).getD 8 0 + invert ((answers.map clampLikert).getD 9 0)) / 2 },
      by simp only [computeBigFive, if_pos h]⟩
  · intro h
    simp only [computeBigFive, if_neg h]

/-- Witness for C6 at the concrete 3-element list. -/
theorem computeBigFive_length_contract_witness :
    ([1, 2, 3] : List ℚ).length ≠ 10 ∧
    computeBigFive [1, 2, 3] = .error "Se requieren 10 respuestas para calcular Big Five." :=
  ⟨by norm_num, (computeBigFive_length_contract [1, 2, 3]).2 (by norm_num)⟩

/-- C7: for 10 answers each in {1..5}, `computeBigFive` returns, per
trait, the mean of its two items with the reverse-coded item inverted as
`6 - answer`, a value in [1, 5]; `[5,1,5,1,5,1,5,1,5,1]` scores every
trait 5, all 3's score every trait 3, and for a trait value in [1, 5] the
display percent is `round((value - 1) / 4 * 100)`. -/
theorem computeBigFive_valid_scores :
    (∀ answers : List ℚ, answers.length = 10 →
      (∀ a ∈ answers, a = 1 ∨ a = 2 ∨ a = 3 ∨ a = 4 ∨ a = 5) →
      ∃ p, computeBigFive answers = .ok p
        ∧ p.O = (answers.getD 0 0 + (6 - answers.getD 1 0)) / 2
        ∧ p.C = (answers.getD 2 0 + (6 - answers.getD 3 0)) / 2
        ∧ p.E = (answers.getD 4 0 + (6 - answers.getD 5 0)) / 2
        ∧ p.A = (answers.getD 6 0 + (6 - answers.getD 7 0)) / 2
        ∧ p.N = (answers.getD 8 0 + (6 - answers.getD 9 0)) / 2
        ∧ 1 ≤ p.O ∧ p.O ≤ 5 ∧ 1 ≤ p.C ∧ p.C ≤ 5 ∧ 1 ≤ p.E ∧ p.E ≤ 5
        ∧ 1 ≤ p.A ∧ p.A ≤ 5 ∧ 1 ≤ p.N ∧ p.N ≤ 5)
    ∧ computeBigFive [5, 1, 5, 1, 5, 1, 5, 1, 5, 1] = .ok ⟨5, 5, 5, 5, 5⟩
    ∧ computeBigFive [3, 3, 3, 3, 3, 3, 3, 3, 3, 3] = .ok ⟨3, 3, 3, 3, 3⟩
    ∧ (∀ v : ℚ, 1 ≤ v → v ≤ 5 → traitToPercent v = jsRound ((v - 1) / 4 * 100)) := by
  refine ⟨?_, ?_, ?_, ?_⟩
  · intro l hlen hmem
    have hmm : ∀ i, i < 10 → l.getD i 0 = 1 ∨ l.getD i 0 = 2 ∨ l.getD i 0 = 3
        ∨ l.getD i 0 = 4 ∨ l.getD i 0 = 5 := by
      intro i hi
      have hi' : i < l.length := by omega
      have hmem' : l.getD i 0 ∈ l := by
        rw [List.getD_eq_getElem _ _ hi']
        exact List.getElem_mem _
      exact hmem _ hmem'
    have hgd : ∀ i, i < 10 → (l.map clampLikert).getD i 0 = l.getD i 0 := by
      intro i hi
      rw [getD_map_clampLikert _ _ (by omega), clampLikert_of_likert (hmm i hi)]
    have hb : ∀ i, i < 10 → 1 ≤ l.getD i 0 ∧ l.getD i 0 ≤ 5 := by
      intro i hi
      rcases hmm i hi with h | h | h | h | h <;> rw [h] <;> norm_num
    obtain ⟨h0a, h0b⟩ := hb 0 (by norm_num)
    obtain ⟨h1a, h1b⟩ := hb 1 (by norm_num)
    obtain ⟨h2a, h2b⟩ := hb 2 (by norm_num)
    obtain ⟨h3a, h3b⟩ := hb 3 (by norm_num)
    obtain ⟨h4a, h4b⟩ := hb 4 (by norm_num)
    obtain ⟨h5a, h5b⟩ := hb 5 (by norm_num)
    obtain ⟨h6a, h6b⟩ := hb 6 (by norm_num)
    obtain ⟨h7a, h7b⟩ := hb 7 (by norm_num)
    obtain ⟨h8a, h8b⟩ := hb 8 (by norm_num)
    obtain ⟨h9a, h9b⟩ := hb 9 (by norm_num)
    have hok : computeBigFive l = .ok
        { O := (l.getD 0 0 + (6 - l.getD 1 0)) / 2
          C := (l.getD 2 0 + (6 - l.getD 3 0)) / 2
          E := (l.getD 4 0 + (6 - l.getD 5 0)) / 2
          A := (l.getD 6 0 + (6 - l.getD 7 0)) / 2
          N := (l.getD 8 0 + (6 - l.getD 9 0)) / 2 } := by
      simp only [computeBigFive, if_pos hlen]
      rw [hgd 0 (by norm_num), hgd 1 (by norm_num), hgd 2 (by norm_num), hgd 3 (by norm_num),
        hgd 4 (by norm_num), hgd 5 (by norm_num), hgd 6 (by norm_num), hgd 7 (by norm_num),
        hgd 8 (by norm_num), hgd 9 (by norm_num)]
      rfl
    refine ⟨_, hok, rfl, rfl, rfl, rfl, rfl, ?_, ?_, ?_, ?_, ?_, ?_, ?_, ?_, ?_, ?_⟩
    · show 1 ≤ (l.getD 0 0 + (6 - l.getD 1 0)) / 2
      linarith
    · show (l.getD 0 0 + (6 - l.getD 1 0)) / 2 ≤ 5
      linarith
    · show 1 ≤ (l.getD 2 0 + (6 - l.getD 3 0)) / 2
      linarith
    · show (l.getD 2 0 + (6 - l.getD 3 0)) / 2 ≤ 5
      linarith
    · show 1 ≤ (l.getD 4 0 + (6 - l.getD 5 0)) / 2
      linarith
    · show (l.getD 4 0 + (6 - l.getD 5 0)) / 2 ≤ 5
      linarith
    · show 1 ≤ (l.getD 6 0 + (6 - l.getD 7 0)) / 2
      linarith
    · show (l.getD 6 0 + (6 - l.getD 7 0)) / 2 ≤ 5
      linarith
    · show 1 ≤ (l.getD 8 0 + (6 - l.getD 9 0)) / 2
      linarith
    · show (l.getD 8 0 + (6 - l.getD 9 0)) / 2 ≤ 5
      linarith
  · norm_num [computeBigFive, clampLikert, jsRound, invert]
  · norm_num [computeBigFive, clampLikert, jsRound, invert]
  · intro v h1 h5
    rw [traitToPercent, max_eq_right h1, min_eq_right h5]

/-- Witness for C7 at the concrete trait value 3. -/
theorem computeBigFive_valid_scores_witness :
    (1:ℚ) ≤ 3 ∧ (3:ℚ) ≤ 5 ∧ traitToPercent 3 = jsRound (((3:ℚ) - 1) / 4 * 100) :=
  ⟨by norm_num, by norm_num,
    computeBigFive_valid_scores.2.2.2 3 (by norm_num) (by norm_num)⟩

/-- C10 (implicit): `computeBigFive` sanitizes every answer of a
10-element list with `clampLikert` (round to nearest integer, then clamp
into [1, 5]) before scoring, so out-of-range or non-integer values never
cause an error: `clampLikert` always yields an integer in [1, 5], and in
particular 0 ↦ 1, 7 ↦ 5, 3.6 ↦ 4. -/
theorem computeBigFive_sanitize :
    (∀ answers : List ℚ, answers.length = 10 →
      computeBigFive answers = .ok
        { O := (clampLikert (answers.getD 0 0) + invert (clampLikert (answers.getD 1 0))) / 2
          C := (clampLikert (answers.getD 2 0) + invert (clampLikert (answers.getD 3 0))) / 2
          E := (clampLikert (answers.getD 4 0) + invert (clampLikert (answers.getD 5 0))) / 2
          A := (clampLikert (answers.getD 6 0) + invert (clampLikert (answers.getD 7 0))) / 2
          N := (clampLikert (answers.getD 8 0) + invert (clampLikert (answers.getD 9 0))) / 2 })
    ∧ (∀ a : ℚ, ∃ k : ℤ, clampLikert a = (k : ℚ) ∧ 1 ≤ k ∧ k ≤ 5)
    ∧ clampLikert 0 = 1 ∧ clampLikert 7 = 5 ∧ clampLikert (18/5) = 4 := by
  refine ⟨?_, ?_, ?_, ?_, ?_⟩
  · intro l hlen
    simp only [computeBigFive, if_pos hlen]
    rw [getD_map_clampLikert l 0 (by omega), getD_map_clampLikert l 1 (by omega),
      getD_map_clampLikert l 2 (by omega), getD_map_clampLikert l 3 (by omega),
      getD_map_clampLikert l 4 (by omega), getD_map_clampLikert l 5 (by omega),
      getD_map_clampLikert l 6 (by omega), getD_map_clampLikert l 7 (by omega),
      getD_map_clampLikert l 8 (by omega), getD_map_clampLikert l 9 (by omega)]
  · intro a
    refine ⟨min 5 (max 1 (jsRound a)), ?_, ?_, ?_⟩
    · rw [clampLikert]; push_cast; rfl
    · exact le_min (by norm_num) (le_max_left 1 _)
    · exact min_le_left _ _
  · norm_num [clampLikert, jsRound]
  · norm_num [clampLikert, jsRound]
  · norm_num [clampLikert, jsRound]

/-- Witness for C10 at a concrete list containing 0, 7 and 3.6. -/
theorem computeBigFive_sanitize_witness :
    ([0, 7, 18/5, 3, 3, 3, 3, 3, 3, 3] : List ℚ).length = 10 ∧
    computeBigFive [0, 7, 18/5, 3, 3, 3, 3, 3, 3, 3]
      = .ok { O := (clampLikert 0 + invert (clampLikert 7)) / 2
              C := (clampLikert (18/5) + invert (clampLikert 3)) / 2
              E := (clampLikert 3 + invert (clampLikert 3)) / 2
              A := (clampLikert 3 + invert (clampLikert 3)) / 2
              N := (clampLikert 3 + invert (clampLikert 3)) / 2 } := by
  refine ⟨by norm_num, ?_⟩
  have h := computeBigFive_sanitize.1 [0, 7, 18/5, 3, 3, 3, 3, 3, 3, 3] (by norm_num)
  simpa using h

/-! ## C9 -/

lemma pushCap_foldl {α : Type} (C : ℕ) (hC : 0 < C) :
    ∀ (xs s : List α), s.length ≤ C →
      List.foldl (fun acc v => pushCap acc v C) s xs
        = (s ++ xs).drop ((s ++ xs).length - C) := by
  intro xs
  induction xs with
  | nil =>
    intro s hs
    rw [List.foldl_nil, List.append_nil, Nat.sub_eq_zero_of_le hs, List.drop_zero]
  | cons x xs ih =>
    intro s hs
    rw [List.foldl_cons]
    rcases Nat.lt_or_ge s.length C with hlt | hge
    · have hpc : pushCap s x C = s ++ [x] := by
        simp only [pushCap]
        rw [if_neg (by simp only [List.length_append, List.length_cons, List.length_nil]; omega)]
      rw [hpc, ih (s ++ [x]) (by simp only [List.length_append, List.length_singleton]; omega)]
      rw [List.append_assoc]
      rfl
    · have heq : s.length = C := le_antisymm hs hge
      cases s with
      | nil =>
        simp only [List.length_nil] at heq
        omega
      | cons a s' =>
        simp only [List.length_cons] at heq
        have hpc : pushCap (a :: s') x C = s' ++ [x] := by
          simp only [pushCap]
          rw [if_pos (by simp only [List.length_append, List.length_cons, List.length_nil]; omega)]
          rfl
        rw [hpc, ih (s' ++ [x])
          (by simp only [List.length_append, List.length_singleton]; omega)]
        have h1 : (s' ++ [x]) ++ xs = s' ++ x :: xs := by simp
        rw [h1]
        have h2 : ((a :: s') ++ x :: xs).length - C = ((s' ++ x :: xs).length - C) + 1 := by
          simp only [List.length_append, List.length_cons]
          omega
        rw [h2, show (a :: s') ++ x :: xs = a :: (s' ++ x :: xs) from rfl, List.drop_succ_cons]

/-- C9: for every sequence of pushes into an initially empty bounded
rolling buffer of capacity 30 (attention/fatigue history via
`pushLimited`), 45 (age history), 60 (EAR history) or 40 (emotion history
via `pushEmotionLimited`), the final buffer is exactly the last
`min(n, C)` pushed values in arrival order (`drop (n - C)` of the pushed
sequence — the oldest values are evicted first), its length is
`min(n, C)`, and that length is at most the capacity. -/
theorem pushLimited_fifo (xs : List ℚ) (es : List EmotionLabel) :
    (List.foldl (fun acc v => pushLimited acc v 30) [] xs = xs.drop (xs.length - 30)
      ∧ (List.foldl (fun acc v => pushLimited acc v 30) [] xs).length = min xs.length 30
      ∧ min xs.length 30 ≤ 30)
    ∧ (List.foldl (fun acc v => pushLimited acc v 45) [] xs = xs.drop (xs.length - 45)
      ∧ (List.foldl (fun acc v => pushLimited acc v 45) [] xs).length = min xs.length 45
      ∧ min xs.length 45 ≤ 45)
    ∧ (List.foldl (fun acc v => pushLimited acc v 60) [] xs = xs.drop (xs.length - 60)
      ∧ (List.foldl (fun acc v => pushLimited acc v 60) [] xs).length = min xs.length 60
      ∧ min xs.length 60 ≤ 60)
    ∧ (List.foldl (fun acc v => pushEmotionLimited acc v 40) [] es = es.drop (es.length - 40)
      ∧ (List.foldl (fun acc v => pushEmotionLimited acc v 40) [] es).length = min es.length 40
      ∧ min es.length 40 ≤ 40) := by
  have key : ∀ (C : ℕ), 0 < C →
      List.foldl (fun acc v => pushLimited acc v C) [] xs = xs.drop (xs.length - C) := by
    intro C hC
    have h := pushCap_foldl C hC xs [] (by simp)
    simpa [pushLimited] using h
  have keyE : ∀ (C : ℕ), 0 < C →
      List.foldl (fun acc v => pushEmotionLimited acc v C) [] es = es.drop (es.length - C) := by
    intro C hC
    have h := pushCap_foldl C hC es [] (by simp)
    simpa [pushEmotionLimited] using h
  refine ⟨⟨key 30 (by norm_num), ?_, ?_⟩, ⟨key 45 (by norm_num), ?_, ?_⟩,
    ⟨key 60 (by norm_num), ?_, ?_⟩, ⟨keyE 40 (by norm_num), ?_, ?_⟩⟩
  · rw [key 30 (by norm_num), List.length_drop]; omega
  · omega
  · rw [key 45 (by norm_num), List.length_drop]; omega
  · omega
  · rw [key 60 (by norm_num), List.length_drop]; omega
  · omega
  · rw [keyE 40 (by norm_num), List.length_drop]; omega
  · omega

/-! ## C8 -/

lemma framesOf_append (l l' : List BlinkInput) :
    framesOf (l ++ l') = framesOf l ++ framesOf l' := by
  simp [framesOf]

lemma framesOf_map_timestamp (trace : List BlinkInput) :
    (framesOf trace).map BlinkFrame.timestamp = trace.map BlinkInput.now := by
  unfold framesOf
  rw [List.map_map]
  rfl

lemma transitionTimes_mem : ∀ (l : List BlinkFrame) (t : ℤ),
    t ∈ transitionTimes l → t ∈ l.map BlinkFrame.timestamp := by
  intro l
  induction l with
  | nil => intro t ht; simp [transitionTimes] at ht
  | cons a l ih =>
    intro t ht
    cases l with
    | nil => simp [transitionTimes] at ht
    | cons b m =>
      rw [transitionTimes] at ht
      rcases List.mem_append.mp ht with h | h
      · split at h
        · simp only [List.mem_singleton] at h
          subst h
          simp
        · simp at h
      · have h2 := ih t h
        simp only [List.map_cons, List.mem_cons] at h2 ⊢
        tauto

lemma transitionTimes_snoc : ∀ (l : List BlinkFrame) (p x : BlinkFrame),
    l.getLast? = some p →
    transitionTimes (l ++ [x])
      = transitionTimes l ++ (if p.isEyeOpen && !x.isEyeOpen then [x.timestamp] else []) := by
  intro l
  induction l with
  | nil => intro p x h; simp at h
  | cons a l ih =>
    intro p x h
    cases l with
    | nil =>
      obtain rfl : a = p := by
        have := List.getLast?_singleton a
        rw [this] at h
        injection h
      simp [transitionTimes]
    | cons b m =>
      have hl : (b :: m).getLast? = some p := by
        rw [← List.getLast?_cons_cons]
        exact h
      have hih := ih p x hl
      show transitionTimes (a :: b :: (m ++ [x])) = _
      rw [transitionTimes]
      have : transitionTimes (b :: (m ++ [x])) = transitionTimes ((b :: m) ++ [x]) := rfl
      rw [this, hih, transitionTimes]
      rw [List.append_assoc]

lemma blinkUpdate_char (pre : List BlinkInput) (x : BlinkInput)
    (hw : ∀ s ∈ (pre ++ [x]).map BlinkInput.now, ∀ t ∈ (pre ++ [x]).map BlinkInput.now,
      s - t < WINDOW_SIZE) :
    blinkUpdate ⟨framesOf pre, transitionTimes (framesOf pre)⟩ x.ear x.mar x.now
      = (⟨framesOf (pre ++ [x]), transitionTimes (framesOf (pre ++ [x]))⟩,
         ⟨blinkSpecRate (pre ++ [x]), !(toBlinkFrame x).isEyeOpen, (toBlinkFrame x).isYawning⟩) := by
  have hxnow : x.now ∈ (pre ++ [x]).map BlinkInput.now := by simp
  have hframes : framesOf pre
      ++ [{ timestamp := x.now, isEyeOpen := decide (EAR_THRESHOLD < x.ear),
            isYawning := decide (MAR_THRESHOLD < x.mar) }]
      = framesOf (pre ++ [x]) := by
    rw [framesOf_append]
    rfl
  have hfilter : (framesOf (pre ++ [x])).filter
      (fun f => decide (x.now - f.timestamp < WINDOW_SIZE)) = framesOf (pre ++ [x]) := by
    apply List.filter_eq_self.mpr
    intro f hf
    have hmemt : f.timestamp ∈ (pre ++ [x]).map BlinkInput.now := by
      rw [← framesOf_map_timestamp]
      exact List.mem_map_of_mem _ hf
    exact decide_eq_true (hw _ hxnow _ hmemt)
  have hkept : (transitionTimes (framesOf pre)).filter
      (fun t => decide (x.now - t < WINDOW_SIZE)) = transitionTimes (framesOf pre) := by
    apply List.filter_eq_self.mpr
    intro t ht
    have h1 : t ∈ (framesOf pre).map BlinkFrame.timestamp := transitionTimes_mem _ _ ht
    rw [framesOf_map_timestamp] at h1
    have h2 : t ∈ (pre ++ [x]).map BlinkInput.now := by
      rw [List.map_append]
      exact List.mem_append_left _ h1
    exact decide_eq_true (hw _ hxnow _ h2)
  simp only [blinkUpdate, hframes, hfilter, hkept]
  have hevents : (match (framesOf (pre ++ [x])).reverse with
      | curr :: prev :: _ =>
        if prev.isEyeOpen && !curr.isEyeOpen then transitionTimes (framesOf pre) ++ [x.now]
        else transitionTimes (framesOf pre)
      | _ => transitionTimes (framesOf pre))
      = transitionTimes (framesOf (pre ++ [x])) := by
    cases pre with
    | nil => rfl
    | cons a pre' =>
      rcases heq : (framesOf (a :: pre')).reverse with _ | ⟨prev, rest⟩
      · exfalso
        have : framesOf (a :: pre') = [] := by
          rw [← List.reverse_reverse (framesOf (a :: pre')), heq, List.reverse_nil]
        simp [framesOf] at this
      · have hrev : (framesOf ((a :: pre') ++ [x])).reverse
            = toBlinkFrame x :: prev :: rest := by
          rw [framesOf_append, List.reverse_append, heq]
          rfl
        have hlast : (framesOf (a :: pre')).getLast? = some prev := by
          rw [← List.head?_reverse, heq]
          rfl
        have hsing : framesOf [x] = [toBlinkFrame x] := rfl
        rw [hrev, framesOf_append, hsing, transitionTimes_snoc _ prev (toBlinkFrame x) hlast]
        show (if (prev.isEyeOpen && !(toBlinkFrame x).isEyeOpen) = true
            then transitionTimes (framesOf (a :: pre')) ++ [x.now]
            else transitionTimes (framesOf (a :: pre')))
          = transitionTimes (framesOf (a :: pre'))
            ++ (if prev.isEyeOpen && !(toBlinkFrame x).isEyeOpen
                then [(toBlinkFrame x).timestamp] else [])
        by_cases hc : (prev.isEyeOpen && !(toBlinkFrame x).isEyeOpen) = true
        · rw [if_pos hc, if_pos hc]
          rfl
        · rw [if_neg hc, if_neg hc, List.append_nil]
  rw [hevents]
  congr 1
  congr 1
  by_cases hlen : 1 < (framesOf (pre ++ [x])).length
  · rw [blinkSpecRate, if_pos hlen, if_pos hlen]
    rw [if_pos (lt_of_lt_of_le (by norm_num) (le_max_left 1000
      (lastTimestamp (framesOf (pre ++ [x])) - headTimestamp (framesOf (pre ++ [x])))))]
  · rw [blinkSpecRate, if_neg hlen, if_neg hlen]
    rw [if_neg (lt_irrefl 0)]

lemma blinkRun_char : ∀ (rest pre : List BlinkInput), rest ≠ [] →
    (∀ s ∈ (pre ++ rest).map BlinkInput.now, ∀ t ∈ (pre ++ rest).map BlinkInput.now,
      s - t < WINDOW_SIZE) →
    blinkRun ⟨framesOf pre, transitionTimes (framesOf pre)⟩ rest
      = (⟨framesOf (pre ++ rest), transitionTimes (framesOf (pre ++ rest))⟩,
         blinkSpecRate (pre ++ rest)) := by
  intro rest
  induction rest with
  | nil => intro pre h _; exact absurd rfl h
  | cons x rest ih =>
    intro pre _ hw
    cases rest with
    | nil =>
      show ((blinkUpdate ⟨framesOf pre, transitionTimes (framesOf pre)⟩ x.ear x.mar x.now).1,
        (blinkUpdate ⟨framesOf pre, transitionTimes (framesOf pre)⟩ x.ear x.mar x.now).2.blinks) = _
      rw [blinkUpdate_char pre x hw]
    | cons y rest' =>
      show blinkRun (blinkUpdate ⟨framesOf pre, transitionTimes (framesOf pre)⟩
          x.ear x.mar x.now).1 (y :: rest') = _
      have hw' : ∀ s ∈ (pre ++ [x]).map BlinkInput.now,
          ∀ t ∈ (pre ++ [x]).map BlinkInput.now, s - t < WINDOW_SIZE := by
        intro s hs t ht
        apply hw
        · simp only [List.map_append, List.mem_append] at hs ⊢
          rcases hs with h | h
          · exact Or.inl h
          · right
            simp only [List.map_cons, List.mem_cons] at h ⊢
            tauto
        · simp only [List.map_append, List.mem_append] at ht ⊢
          rcases ht with h | h
          · exact Or.inl h
          · right
            simp only [List.map_cons, List.mem_cons] at h ⊢
            tauto
      rw [blinkUpdate_char pre x hw']
      have happ : (pre ++ [x]) ++ (y :: rest') = pre ++ x :: y :: rest' := by simp
      have hres := ih (pre ++ [x]) (by simp) (by rw [happ]; exact hw)
      rw [happ] at hres
      exact hres

lemma transitionTimes_insert_dup : ∀ (l₁ : List BlinkFrame) (a : BlinkFrame) (t : ℤ) (y : Bool)
    (l₂ : List BlinkFrame),
    transitionTimes (l₁ ++ a :: (⟨t, a.isEyeOpen, y⟩ : BlinkFrame) :: l₂)
      = transitionTimes (l₁ ++ a :: l₂) := by
  intro l₁
  induction l₁ with
  | nil =>
    intro a t y l₂
    cases l₂ with
    | nil => simp [transitionTimes, Bool.and_not_self]
    | cons b m => simp [transitionTimes, Bool.and_not_self]
  | cons c l₁' ih =>
    intro a t y l₂
    cases l₁' with
    | nil =>
      show (if (c.isEyeOpen && !a.isEyeOpen) = true then [a.timestamp] else [])
          ++ transitionTimes (a :: (⟨t, a.isEyeOpen, y⟩ : BlinkFrame) :: l₂)
        = (if (c.isEyeOpen && !a.isEyeOpen) = true then [a.timestamp] else [])
          ++ transitionTimes (a :: l₂)
      exact congrArg _ (ih a t y l₂)
    | cons d m =>
      show (if (c.isEyeOpen && !d.isEyeOpen) = true then [d.timestamp] else [])
          ++ transitionTimes (d :: (m ++ a :: (⟨t, a.isEyeOpen, y⟩ : BlinkFrame) :: l₂))
        = (if (c.isEyeOpen && !d.isEyeOpen) = true then [d.timestamp] else [])
          ++ transitionTimes (d :: (m ++ a :: l₂))
      exact congrArg _ (ih a t y l₂)

lemma headTimestamp_append_cons (l : List BlinkFrame) (a : BlinkFrame) (m m' : List BlinkFrame) :
    headTimestamp (l ++ a :: m) = headTimestamp (l ++ a :: m') := by
  cases l <;> rfl

lemma lastTimestamp_append_cons (l : List BlinkFrame) (a : BlinkFrame) (m : List BlinkFrame) :
    lastTimestamp (l ++ a :: m) = lastTimestamp (a :: m) := by
  unfold lastTimestamp
  rw [List.getLast?_append_cons]

lemma lastTimestamp_cons_cons (a b : BlinkFrame) (m : List BlinkFrame) :
    lastTimestamp (a :: b :: m) = lastTimestamp (b :: m) := by
  unfold lastTimestamp
  rw [List.getLast?_cons_cons]

/-- C8 (amended): for every observation sequence whose timestamps all lie
within one 60000 ms window of each other (so no retained frame or event is
ever evicted), the reported rate is the number of open→closed transitions
(eye open meaning EAR above 0.18) scaled by `60000 / windowDurationMs`,
where `windowDurationMs = max(1000, lastTimestamp - firstTimestamp)` is
the retained-frame span (`blinkSpecRate`); the transition-timestamp list
is unchanged by inserting an extra sample that repeats its predecessor's
eye state; and consequently, for such window-confined sequences, the
reported rate is unchanged when an extra frame sampling the same eye
signal is inserted between two existing frames — the frame-rate
independence the spec asserts, which fails for sequences that outlive the
window (see the counterexample). -/
theorem blinkRate_window_formula :
    (∀ trace : List BlinkInput,
        (∀ s ∈ trace.map BlinkInput.now, ∀ t ∈ trace.map BlinkInput.now, s - t < WINDOW_SIZE) →
        (blinkRun initialBlinkState trace).2 = blinkSpecRate trace)
    ∧ (∀ (l₁ l₂ : List BlinkFrame) (a : BlinkFrame) (t : ℤ) (y : Bool),
        transitionTimes (l₁ ++ a :: (⟨t, a.isEyeOpen, y⟩ : BlinkFrame) :: l₂)
          = transitionTimes (l₁ ++ a :: l₂))
    ∧ (∀ (pre post : List BlinkInput) (u w v : BlinkInput),
        decide (EAR_THRESHOLD < w.ear) = decide (EAR_THRESHOLD < u.ear) →
        (∀ s ∈ (pre ++ u :: v :: post).map BlinkInput.now,
          ∀ t ∈ (pre ++ u :: v :: post).map BlinkInput.now, s - t < WINDOW_SIZE) →
        (∀ s ∈ (pre ++ u :: w :: v :: post).map BlinkInput.now,
          ∀ t ∈ (pre ++ u :: w :: v :: post).map BlinkInput.now, s - t < WINDOW_SIZE) →
        (blinkRun initialBlinkState (pre ++ u :: w :: v :: post)).2
          = (blinkRun initialBlinkState (pre ++ u :: v :: post)).2) := by
  refine ⟨?_, ?_, ?_⟩
  · intro trace hw
    cases trace with
    | nil => rfl
    | cons x rest =>
      exact congrArg Prod.snd (blinkRun_char (x :: rest) [] (by simp) hw)
  · intro l₁ l₂ a t y
    exact transitionTimes_insert_dup l₁ a t y l₂
  · intro pre post u w v hcond hw1 hw2
    have e2 : (blinkRun initialBlinkState (pre ++ u :: w :: v :: post)).2
        = blinkSpecRate (pre ++ u :: w :: v :: post) :=
      congrArg Prod.snd (blinkRun_char (pre ++ u :: w :: v :: post) [] (by simp) hw2)
    have e1 : (blinkRun initialBlinkState (pre ++ u :: v :: post)).2
        = blinkSpecRate (pre ++ u :: v :: post) :=
      congrArg Prod.snd (blinkRun_char (pre ++ u :: v :: post) [] (by simp) hw1)
    rw [e2, e1]
    have hfw : toBlinkFrame w
        = (⟨w.now, (toBlinkFrame u).isEyeOpen, decide (MAR_THRESHOLD < w.mar)⟩ : BlinkFrame) := by
      show (⟨w.now, decide (EAR_THRESHOLD < w.ear), decide (MAR_THRESHOLD < w.mar)⟩ : BlinkFrame) = _
      rw [hcond]
      rfl
    have hframes1 : framesOf (pre ++ u :: v :: post)
        = framesOf pre ++ toBlinkFrame u :: toBlinkFrame v :: framesOf post := by
      rw [framesOf_append]
      rfl
    have hframes2 : framesOf (pre ++ u :: w :: v :: post)
        = framesOf pre ++ toBlinkFrame u
            :: (⟨w.now, (toBlinkFrame u).isEyeOpen, decide (MAR_THRESHOLD < w.mar)⟩ : BlinkFrame)
            :: toBlinkFrame v :: framesOf post := by
      rw [framesOf_append]
      show framesOf pre ++ toBlinkFrame u :: toBlinkFrame w :: toBlinkFrame v :: framesOf post = _
      rw [hfw]
    have hlen1 : 1 < (framesOf (pre ++ u :: v :: post)).length := by
      rw [hframes1]
      simp only [List.length_append, List.length_cons]
      omega
    have hlen2 : 1 < (framesOf (pre ++ u :: w :: v :: post)).length := by
      rw [hframes2]
      simp only [List.length_append, List.length_cons]
      omega
    have hl2 : lastTimestamp (framesOf pre ++ toBlinkFrame u
          :: (⟨w.now, (toBlinkFrame u).isEyeOpen, decide (MAR_THRESHOLD < w.mar)⟩ : BlinkFrame)
          :: toBlinkFrame v :: framesOf post)
        = lastTimestamp (toBlinkFrame v :: framesOf post) := by
      rw [lastTimestamp_append_cons, lastTimestamp_cons_cons, lastTimestamp_cons_cons]
    have hl1 : lastTimestamp (framesOf pre ++ toBlinkFrame u :: toBlinkFrame v :: framesOf post)
        = lastTimestamp (toBlinkFrame v :: framesOf post) := by
      rw [lastTimestamp_append_cons, lastTimestamp_cons_cons]
    have hh : headTimestamp (framesOf pre ++ toBlinkFrame u
          :: (⟨w.now, (toBlinkFrame u).isEyeOpen, decide (MAR_THRESHOLD < w.mar)⟩ : BlinkFrame)
          :: toBlinkFrame v :: framesOf post)
        = headTimestamp (framesOf pre ++ toBlinkFrame u :: toBlinkFrame v :: framesOf post) :=
      headTimestamp_append_cons _ _ _ _
    simp only [blinkSpecRate]
    rw [if_pos hlen2, if_pos hlen1, hframes2, hframes1, transitionTimes_insert_dup,
      hl2, hl1, hh]

/-- C8 counterexample: two observation sequences sampling the same eye
signal over the same first/last timestamps (the second merely adds an
open frame at t = 30000 between the open frame at t = 0 and the closed
frame at t = 60500) report different rates, 0 and 2 — so the reported
rate is not independent of how many frames per second are fed in once the
sequence spans more than the 60000 ms window, and the open→closed
transition at t = 60500 is not counted at all in the first sequence even
though it lies inside the trailing window. -/
theorem blinkRate_framerate_cex :
    (blinkRun initialBlinkState [⟨3/10, 0, 0⟩, ⟨1/10, 0, 60500⟩]).2 = 0
    ∧ (blinkRun initialBlinkState [⟨3/10, 0, 0⟩, ⟨3/10, 0, 30000⟩, ⟨1/10, 0, 60500⟩]).2 = 2 := by
  constructor <;>
    norm_num [blinkRun, blinkUpdate, EAR_THRESHOLD, MAR_THRESHOLD, WINDOW_SIZE,
      headTimestamp, lastTimestamp, jsRound, initialBlinkState]

/-- Witness for C8 at a concrete 3-frame trace confined to the window
(one blink event over a 2000 ms span; the theorem equates the run with
`blinkSpecRate`, which evaluates to 30 blinks per minute). -/
theorem blinkRate_window_formula_witness :
    (∀ s ∈ ([⟨3/10, 0, 0⟩, ⟨1/10, 0, 1000⟩, ⟨3/10, 0, 2000⟩] : List BlinkInput).map BlinkInput.now,
      ∀ t ∈ ([⟨3/10, 0, 0⟩, ⟨1/10, 0, 1000⟩, ⟨3/10, 0, 2000⟩] : List BlinkInput).map BlinkInput.now,
      s - t < WINDOW_SIZE)
    ∧ (blinkRun initialBlinkState [⟨3/10, 0, 0⟩, ⟨1/10, 0, 1000⟩, ⟨3/10, 0, 2000⟩]).2
        = blinkSpecRate [⟨3/10, 0, 0⟩, ⟨1/10, 0, 1000⟩, ⟨3/10, 0, 2000⟩] :=
  ⟨by decide, blinkRate_window_formula.1 _ (by decide)⟩
